import Mathlib

/-!
Verification development for the RsHash repository: an incremental
SHA-256 / SHA-512 hashing module with a streaming facade
(construct / update / digest / hexdigest), fixed metadata and a
name-based dispatcher.  The compiled extension implementing the core is
not part of the Python sources, so the Compression Core, Block Feeder,
Padding & Finalizer and Hash Facade are modelled from the specification
(spec.md sections 3, 4 and 6).  Bytes are modelled as natural numbers
below 256, byte sequences as lists, machine words as naturals reduced
modulo 2^wordBits.
-/

namespace RsHash

/-- Modelled from the spec (section 3, Algorithm Parameters): the
compile-time parameter record of one algorithm variant: word width,
round count, block size, digest size, length-field width in bytes,
initial hash constants, round constants, and the rotation/shift
parameters of the four sigma mixing functions. -/
structure Alg where
  wordBits : Nat
  roundCount : Nat
  blockSize : Nat
  digestSize : Nat
  lenBytes : Nat
  name : String
  iv : List Nat
  k : List Nat
  bsig0 : Nat × Nat × Nat
  bsig1 : Nat × Nat × Nat
  ssig0 : Nat × Nat × Nat
  ssig1 : Nat × Nat × Nat

/-- Reduce a value to the variant's word width (modular arithmetic;
wraparound is correct, not an error — spec section 4.1). -/
def wmask (A : Alg) (x : Nat) : Nat := x % 2 ^ A.wordBits

/-- Right rotation of a word of the variant's width. -/
def rotr (A : Alg) (n x : Nat) : Nat :=
  wmask A ((x >>> n) ||| (x <<< (A.wordBits - n)))

/-- Bitwise complement of a word of the variant's width. -/
def wnot (A : Alg) (x : Nat) : Nat := (2 ^ A.wordBits - 1) ^^^ x

/-- Capital-sigma-0 rotation mix (spec section 4.1). -/
def bigSigma0 (A : Alg) (x : Nat) : Nat :=
  rotr A A.bsig0.1 x ^^^ rotr A A.bsig0.2.1 x ^^^ rotr A A.bsig0.2.2 x

/-- Capital-sigma-1 rotation mix (spec section 4.1). -/
def bigSigma1 (A : Alg) (x : Nat) : Nat :=
  rotr A A.bsig1.1 x ^^^ rotr A A.bsig1.2.1 x ^^^ rotr A A.bsig1.2.2 x

/-- Small-sigma-0 message-schedule mix (two rotations and a shift). -/
def smallSigma0 (A : Alg) (x : Nat) : Nat :=
  rotr A A.ssig0.1 x ^^^ rotr A A.ssig0.2.1 x ^^^ (x >>> A.ssig0.2.2)

/-- Small-sigma-1 message-schedule mix (two rotations and a shift). -/
def smallSigma1 (A : Alg) (x : Nat) : Nat :=
  rotr A A.ssig1.1 x ^^^ rotr A A.ssig1.2.1 x ^^^ (x >>> A.ssig1.2.2)

/-- Choice function Ch(x,y,z). -/
def ch (A : Alg) (x y z : Nat) : Nat := (x &&& y) ^^^ (wnot A x &&& z)

/-- Majority function Maj(x,y,z). -/
def maj (x y z : Nat) : Nat := (x &&& y) ^^^ (x &&& z) ^^^ (y &&& z)

/-- Big-endian value of a byte list. -/
def beWord (bytes : List Nat) : Nat := bytes.foldl (fun a b => a * 256 + b) 0

/-- The 16 native big-endian words of one raw block (spec section 4.1). -/
def blockWords (A : Alg) (block : List Nat) : List Nat :=
  (List.range 16).map fun i =>
    beWord (((block.drop (i * (A.wordBits / 8))).take (A.wordBits / 8)))

/-- Extend the message schedule by the given number of words using the
defined sigma mixing functions (spec section 4.1). -/
def extendSched (A : Alg) : Nat → List Nat → List Nat
  | 0, ws => ws
  | n + 1, ws =>
    let L := ws.length
    let t := wmask A (smallSigma1 A (ws.getD (L - 2) 0) + ws.getD (L - 7) 0 +
      smallSigma0 A (ws.getD (L - 15) 0) + ws.getD (L - 16) 0)
    extendSched A n (ws ++ [t])

/-- Full message schedule of one block: 16 words extended to the round
count (64 or 80). -/
def schedule (A : Alg) (block : List Nat) : List Nat :=
  extendSched A (A.roundCount - 16) (blockWords A block)

/-- The 8 working variables of the round loop. -/
structure Vars where
  a : Nat
  b : Nat
  c : Nat
  d : Nat
  e : Nat
  f : Nat
  g : Nat
  h : Nat

/-- One round of the compression loop: Ch, Maj, the capital sigmas, the
per-round constant and the schedule word, threading the 8 working
variables (spec section 4.1). -/
def roundFn (A : Alg) (v : Vars) (kw : Nat × Nat) : Vars :=
  let t1 := wmask A (v.h + bigSigma1 A v.e + ch A v.e v.f v.g + kw.1 + kw.2)
  let t2 := wmask A (bigSigma0 A v.a + maj v.a v.b v.c)
  ⟨wmask A (t1 + t2), v.a, v.b, v.c, wmask A (v.d + t1), v.e, v.f, v.g⟩

/-- Modelled from the spec (section 4.1, Compression Core): given the
current 8-word state and exactly one block of raw bytes, expand the
message schedule, run the round loop, and add the working variables
back into the input state with modular addition. -/
def compress (A : Alg) (hs : List Nat) (block : List Nat) : List Nat :=
  let ws := schedule A block
  let v0 : Vars := ⟨hs.getD 0 0, hs.getD 1 0, hs.getD 2 0, hs.getD 3 0,
    hs.getD 4 0, hs.getD 5 0, hs.getD 6 0, hs.getD 7 0⟩
  let v := (A.k.zip ws).foldl (roundFn A) v0
  [wmask A (hs.getD 0 0 + v.a), wmask A (hs.getD 1 0 + v.b),
   wmask A (hs.getD 2 0 + v.c), wmask A (hs.getD 3 0 + v.d),
   wmask A (hs.getD 4 0 + v.e), wmask A (hs.getD 5 0 + v.f),
   wmask A (hs.getD 6 0 + v.g), wmask A (hs.getD 7 0 + v.h)]

/-- Fuel-indexed block consumption: while at least one full block is
pending, run the Compression Core on it and retire its bytes.  The
fuel only bounds the number of iterations; it is always called with
fuel at least the byte count, which suffices because every iteration
retires a full block. -/
def chunkStep (A : Alg) : Nat → List Nat → List Nat → List Nat × List Nat
  | 0, hs, bytes => (hs, bytes)
  | fuel + 1, hs, bytes =>
    if A.blockSize ≤ bytes.length then
      chunkStep A fuel (compress A hs (bytes.take A.blockSize)) (bytes.drop A.blockSize)
    else (hs, bytes)

/-- Modelled from the spec (section 4.2, Block Feeder): consume every
full block of `bytes`, returning the new word state and the remaining
partial block. -/
def processChunks (A : Alg) (hs bytes : List Nat) : List Nat × List Nat :=
  chunkStep A bytes.length hs bytes

/-- Modelled from the spec (section 3, Hash State): the 8 chaining
words, the message-length counter in bits, and the partial-block
buffer of unprocessed trailing bytes. -/
structure HashState where
  hs : List Nat
  bitLen : Nat
  buf : List Nat

/-- Modelled from the spec (section 3, Lifecycle): the fresh state holds
the variant's initial constants, a zero length counter and an empty
buffer. -/
def initState (A : Alg) : HashState := ⟨A.iv, 0, []⟩

/-- Modelled from the spec (section 4.2): `update` appends the data to
the buffered bytes, runs the Compression Core for every full block
boundary crossed, keeps the remainder, and advances the bit-length
counter by `8 * len(data)`. -/
def update (A : Alg) (s : HashState) (data : List Nat) : HashState :=
  let r := processChunks A s.hs (s.buf ++ data)
  ⟨r.1, s.bitLen + 8 * data.length, r.2⟩

/-- Fixed-width big-endian byte serialization of a natural number. -/
def toBytesBE (w n : Nat) : List Nat :=
  (List.range w).map fun i => (n >>> (8 * (w - 1 - i))) % 256

/-- Serialize the 8 state words big-endian, word by word. -/
def wordsToBytes (A : Alg) (ws : List Nat) : List Nat :=
  ws.flatMap (toBytesBE (A.wordBits / 8))

/-- Modelled from the spec (section 4.3, steps 1-3): the padding
appended at finalization: a single 0x80 byte, zero bytes until the
length is `block size - length-field-bytes` modulo the block size, then
the bit-length counter as a fixed-width big-endian field. -/
def padSuffix (A : Alg) (bufLen bitLen : Nat) : List Nat :=
  0x80 :: (List.replicate
    ((2 * A.blockSize - A.lenBytes - (bufLen % A.blockSize + 1)) % A.blockSize) 0
    ++ toBytesBE A.lenBytes bitLen)

/-- Modelled from the spec (section 4.3, Padding & Finalizer): digest a
snapshot of the live state: pad the buffered remainder, run the
Compression Core over the resulting full blocks, and serialize the
final words big-endian.  The live state is not written back. -/
def digest (A : Alg) (s : HashState) : List Nat :=
  let r := processChunks A s.hs (s.buf ++ padSuffix A s.buf.length s.bitLen)
  wordsToBytes A r.1

/-- The sixteen lowercase hexadecimal digits. -/
def hexChars : List Char :=
  ['0', '1', '2', '3', '4', '5', '6', '7'] ++
    ['8', '9', 'a', 'b', 'c', 'd', 'e', 'f']

/-- Two lowercase hex characters of one byte. -/
def hexByte (b : Nat) : List Char :=
  [hexChars.getD (b / 16 % 16) '0', hexChars.getD (b % 16) '0']

/-- Lowercase hexadecimal encoding of a byte sequence, no separators. -/
def hexEncode (bs : List Nat) : String := String.mk (bs.flatMap hexByte)

/-- Modelled from the spec (section 4.4): `hexdigest` is the digest
bytes encoded as a lowercase hexadecimal text string. -/
def hexdigest (A : Alg) (s : HashState) : String := hexEncode (digest A s)

/-- The SHA-256 parameter set (32-bit words, 64 rounds, 64-byte blocks,
32-byte digest, 64-bit length field, standard constants). -/
def SHA256Alg : Alg :=
  { wordBits := 32, roundCount := 64, blockSize := 64, digestSize := 32,
    lenBytes := 8, name := "sha256",
    iv := [0x6a09e667, 0xbb67ae85, 0x3c6ef372, 0xa54ff53a,
           0x510e527f, 0x9b05688c, 0x1f83d9ab, 0x5be0cd19],
    k := [0x428a2f98, 0x71374491, 0xb5c0fbcf, 0xe9b5dba5, 0x3956c25b, 0x59f111f1, 0x923f82a4, 0xab1c5ed5] ++
      [0xd807aa98, 0x12835b01, 0x243185be, 0x550c7dc3, 0x72be5d74, 0x80deb1fe, 0x9bdc06a7, 0xc19bf174] ++
      [0xe49b69c1, 0xefbe4786, 0x0fc19dc6, 0x240ca1cc, 0x2de92c6f, 0x4a7484aa, 0x5cb0a9dc, 0x76f988da] ++
      [0x983e5152, 0xa831c66d, 0xb00327c8, 0xbf597fc7, 0xc6e00bf3, 0xd5a79147, 0x06ca6351, 0x14292967] ++
      [0x27b70a85, 0x2e1b2138, 0x4d2c6dfc, 0x53380d13, 0x650a7354, 0x766a0abb, 0x81c2c92e, 0x92722c85] ++
      [0xa2bfe8a1, 0xa81a664b, 0xc24b8b70, 0xc76c51a3, 0xd192e819, 0xd6990624, 0xf40e3585, 0x106aa070] ++
      [0x19a4c116, 0x1e376c08, 0x2748774c, 0x34b0bcb5, 0x391c0cb3, 0x4ed8aa4a, 0x5b9cca4f, 0x682e6ff3] ++
      [0x748f82ee, 0x78a5636f, 0x84c87814, 0x8cc70208, 0x90befffa, 0xa4506ceb, 0xbef9a3f7, 0xc67178f2],
    bsig0 := (2, 13, 22), bsig1 := (6, 11, 25),
    ssig0 := (7, 18, 3), ssig1 := (17, 19, 10) }

/-- The SHA-512 parameter set (64-bit words, 80 rounds, 128-byte
blocks, 64-byte digest, 128-bit length field, standard constants). -/
def SHA512Alg : Alg :=
  { wordBits := 64, roundCount := 80, blockSize := 128, digestSize := 64,
    lenBytes := 16, name := "sha512",
    iv := [0x6a09e667f3bcc908, 0xbb67ae8584caa73b, 0x3c6ef372fe94f82b, 0xa54ff53a5f1d36f1,
           0x510e527fade682d1, 0x9b05688c2b3e6c1f, 0x1f83d9abfb41bd6b, 0x5be0cd19137e2179],
    k := [0x428a2f98d728ae22, 0x7137449123ef65cd, 0xb5c0fbcfec4d3b2f, 0xe9b5dba58189dbbc, 0x3956c25bf348b538, 0x59f111f1b605d019, 0x923f82a4af194f9b, 0xab1c5ed5da6d8118] ++
      [0xd807aa98a3030242, 0x12835b0145706fbe, 0x243185be4ee4b28c, 0x550c7dc3d5ffb4e2, 0x72be5d74f27b896f, 0x80deb1fe3b1696b1, 0x9bdc06a725c71235, 0xc19bf174cf692694] ++
      [0xe49b69c19ef14ad2, 0xefbe4786384f25e3, 0x0fc19dc68b8cd5b5, 0x240ca1cc77ac9c65, 0x2de92c6f592b0275, 0x4a7484aa6ea6e483, 0x5cb0a9dcbd41fbd4, 0x76f988da831153b5] ++
      [0x983e5152ee66dfab, 0xa831c66d2db43210, 0xb00327c898fb213f, 0xbf597fc7beef0ee4, 0xc6e00bf33da88fc2, 0xd5a79147930aa725, 0x06ca6351e003826f, 0x142929670a0e6e70] ++
      [0x27b70a8546d22ffc, 0x2e1b21385c26c926, 0x4d2c6dfc5ac42aed, 0x53380d139d95b3df, 0x650a73548baf63de, 0x766a0abb3c77b2a8, 0x81c2c92e47edaee6, 0x92722c851482353b] ++
      [0xa2bfe8a14cf10364, 0xa81a664bbc423001, 0xc24b8b70d0f89791, 0xc76c51a30654be30, 0xd192e819d6ef5218, 0xd69906245565a910, 0xf40e35855771202a, 0x106aa07032bbd1b8] ++
      [0x19a4c116b8d2d0c8, 0x1e376c085141ab53, 0x2748774cdf8eeb99, 0x34b0bcb5e19b48a8, 0x391c0cb3c5c95a63, 0x4ed8aa4ae3418acb, 0x5b9cca4f7763e373, 0x682e6ff3d6b2b8a3] ++
      [0x748f82ee5defb2fc, 0x78a5636f43172f60, 0x84c87814a1f0ab72, 0x8cc702081a6439ec, 0x90befffa23631e28, 0xa4506cebde82bde9, 0xbef9a3f7b2c67915, 0xc67178f2e372532b] ++
      [0xca273eceea26619c, 0xd186b8c721c0c207, 0xeada7dd6cde0eb1e, 0xf57d4f7fee6ed178, 0x06f067aa72176fba, 0x0a637dc5a2c898a6, 0x113f9804bef90dae, 0x1b710b35131c471b] ++
      [0x28db77f523047d84, 0x32caab7b40c72493, 0x3c9ebe0a15c9bebc, 0x431d67c49c100d4c, 0x4cc5d4becb3e42b6, 0x597f299cfc657e2a, 0x5fcb6fab3ad6faec, 0x6c44198c4a475817],
    bsig0 := (28, 34, 39), bsig1 := (14, 18, 41),
    ssig0 := (1, 8, 7), ssig1 := (19, 61, 6) }

/-- Modelled from the spec (section 4.4, Hash Facade): the public
streaming hash object: an algorithm variant and its live state. -/
structure HashObject where
  alg : Alg
  st : HashState

/-- The 256-bit constructor, optionally pre-fed (spec section 4.4):
pre-seeding with initial data is equivalent to constructing bare and
making one update call. -/
def SHA256 (d : List Nat) : HashObject :=
  ⟨SHA256Alg, update SHA256Alg (initState SHA256Alg) d⟩

/-- The 512-bit constructor, optionally pre-fed (spec section 4.4). -/
def SHA512 (d : List Nat) : HashObject :=
  ⟨SHA512Alg, update SHA512Alg (initState SHA512Alg) d⟩

/-- Facade update: feeds data through the Block Feeder. -/
def HashObject.update (o : HashObject) (d : List Nat) : HashObject :=
  ⟨o.alg, RsHash.update o.alg o.st d⟩

/-- Facade digest: byte sequence of exactly digest-size length,
computed on a state snapshot. -/
def HashObject.digest (o : HashObject) : List Nat := RsHash.digest o.alg o.st

/-- Facade hexdigest: lowercase hex of the digest bytes. -/
def HashObject.hexdigest (o : HashObject) : String := RsHash.hexdigest o.alg o.st

/-- Fixed read-only metadata: digest size in bytes. -/
def HashObject.digest_size (o : HashObject) : Nat := o.alg.digestSize

/-- Fixed read-only metadata: block size in bytes. -/
def HashObject.block_size (o : HashObject) : Nat := o.alg.blockSize

/-- Fixed read-only metadata: the variant's canonical lowercase name. -/
def HashObject.name (o : HashObject) : String := o.alg.name

/-- Modelled from the spec (section 7): the minimal error taxonomy;
`UnknownAlgorithm` is raised only by the name-based dispatcher. -/
inductive HashError where
  | UnknownAlgorithm : HashError
deriving DecidableEq

/-- Modelled from the spec (sections 4.4 and 9): the name-based
dispatcher maps the two recognized identifiers to the variants with a
single closed match and fails with `UnknownAlgorithm` otherwise. -/
def new (name : String) (d : List Nat) : Except HashError HashObject :=
  if name = "sha256" then Except.ok (SHA256 d)
  else if name = "sha512" then Except.ok (SHA512 d)
  else Except.error HashError.UnknownAlgorithm

/-- Modelled from the spec (sections 4.3 and 8): the standard reference
one-shot computation: pad the whole message, run the Compression Core
over every block in order from the initial constants, and serialize
the final words big-endian. -/
def shaRef (A : Alg) (msg : List Nat) : List Nat :=
  wordsToBytes A
    (processChunks A A.iv (msg ++ padSuffix A msg.length (8 * msg.length))).1

/-- Hex form of the reference one-shot computation. -/
def shaRefHex (A : Alg) (msg : List Nat) : String := hexEncode (shaRef A msg)

/-- A facade call trace: update operations interleaved with
digest-producing observations. -/
inductive Op where
  | upd : List Nat → Op
  | dig : Op

/-- Modelled from the spec (section 4.4, State machine): run a call
trace against a live state; `dig` records the digest of the current
state without mutating it, `upd` feeds data.  Returns the final state
and the list of digests observed, in order. -/
def runOps (A : Alg) : HashState → List Op → HashState × List (List Nat)
  | s, [] => (s, [])
  | s, Op.upd d :: t => runOps A (update A s d) t
  | s, Op.dig :: t =>
    let r := runOps A s t
    (r.1, digest A s :: r.2)

/-- Chaining values of the SHA-256 state after each 128-byte chunk of
byte 97 of the 1000-byte multi-block test input; index 8 holds the
state after the final full block (960 bytes consumed). -/
def aState256 : Nat → List Nat
  | 1 => [0xeac1afff, 0x7e2fe374, 0x5215a157, 0x6aea3c45, 0x1df0539e, 0x97f91d40, 0xf96170a7, 0x5b4dc721]
  | 2 => [0x6fd0be67, 0x44718c30, 0xa1ec8889, 0xc3b23d25, 0x9f9b6123, 0x8e0747e1, 0x65715407, 0x3d0e7958]
  | 3 => [0x846016fd, 0x63ce922b, 0xc214d039, 0x178eceab, 0x7fd0bfb1, 0x2d7ce142, 0xbdcb169f, 0xbdb11325]
  | 4 => [0x87ae8726, 0xba87bb6f, 0x97055cb7, 0x4dc5b914, 0x0dd3059b, 0x7eef21fb, 0xd02383d7, 0x4baa6850]
  | 5 => [0x6d1077bf, 0x3ea8d943, 0x903bcf49, 0x4cd07545, 0x7400d032, 0x6bad0fce, 0x62c7dd9e, 0x9ce81aba]
  | 6 => [0x66ce742d, 0xfa30cd09, 0x0656becf, 0xd3fd9f28, 0xda67d3ad, 0xe8917c49, 0x99338374, 0x714e86a8]
  | 7 => [0xf0feaa26, 0x3d54b086, 0x3c2398da, 0xee848054, 0x8a5ef7ba, 0x7f4265e9, 0xb5effe18, 0xd9ddf5f2]
  | 8 => [0xc607cf1e, 0x6a95d2fe, 0xba850476, 0x73fd2864, 0x75f9a417, 0x08c3bdf1, 0x32720d1a, 0x77e49fac]
  | _ => [0x6a09e667, 0xbb67ae85, 0x3c6ef372, 0xa54ff53a, 0x510e527f, 0x9b05688c, 0x1f83d9ab, 0x5be0cd19]

/-- Chaining values of the SHA-512 state after each 128-byte chunk of
byte 97 of the 1000-byte multi-block test input. -/
def aState512 : Nat → List Nat
  | 1 => [0x03bf7c6e55c11b04, 0x0d48757f45285fdc, 0xed46689bfc9026c0, 0x281701a1424c80f5, 0xca31738befe6afee, 0x30f5fe8d4e41e248, 0x9379d57c74895af4, 0x4b1e84ebc1bab8b0]
  | 2 => [0xb5ddfe7f6f0ec7ee, 0xd0dd6afd45d7e919, 0x23bad8f162a5bb4a, 0x7dc953f0d2c270c8, 0xd75b2b28aa668482, 0x747a4c65cf09f8c7, 0x4b34ef80e60d15bc, 0xef8d27970b16b406]
  | 3 => [0x95aa652cb84813eb, 0x9608412655269034, 0x225c60d0b48f97d7, 0x3c6e960be4ac3fcd, 0xf39c2361418f52b7, 0xfd402123d14b8172, 0x9172c1211a235c8a, 0x47f1660c6cdae66f]
  | 4 => [0xa67b8d1e82fc82ab, 0xfa2e4ab561e091c2, 0xcb2d2317064877a6, 0xb165f3fe638d4f38, 0x02389e3c3673cf35, 0xa385f8c4ebf03e19, 0x49f5022796e1f092, 0x1887d1a37887ecb6]
  | 5 => [0x3472ca89fcb79480, 0xf2a786a63e5b097f, 0xeff0f8811c5ec06a, 0xe276808b2e0d0d84, 0x159fc282aa716dd4, 0x41c6241e92c61fe6, 0x3031d6453ea4b08b, 0xbc646e491b6678a6]
  | 6 => [0xb2c4e08b19234195, 0xa6fd237cbb6af531, 0xb297b36362f6ab14, 0x3753653a9d0c9ee7, 0x3f381736a07961b7, 0x3b087f253f6a7f64, 0x03e2bdd629a19af6, 0x8209ab2b7930fc6f]
  | 7 => [0x527d7c6ae0f0adcd, 0x6ec35915bbd6a77d, 0x4ccb345bf8e7a869, 0x9e914166f5c3fd35, 0x2d739f931ed0f677, 0x92fe347911ea61c1, 0xe185444f2f307208, 0x8bdd7b7cbf23cc9e]
  | _ => [0x6a09e667f3bcc908, 0xbb67ae8584caa73b, 0x3c6ef372fe94f82b, 0xa54ff53a5f1d36f1, 0x510e527fade682d1, 0x9b05688c2b3e6c1f, 0x1f83d9abfb41bd6b, 0x5be0cd19137e2179]

/-! ### Lemmas about the Block Feeder -/

/-- The fuel of `chunkStep` is irrelevant once it dominates the byte
count: every iteration retires a whole block. -/
theorem chunkStep_congr (A : Alg) (hA : 0 < A.blockSize) :
    ∀ f g hs b, b.length ≤ f → b.length ≤ g →
      chunkStep A f hs b = chunkStep A g hs b := by
  intro f
  induction f with
  | zero =>
    intro g hs b hf _
    have hb : b = [] := List.eq_nil_of_length_eq_zero (Nat.le_zero.mp hf)
    subst hb
    cases g with
    | zero => rfl
    | succ g =>
      simp only [chunkStep, List.length_nil]
      rw [if_neg (by omega)]
  | succ f ih =>
    intro g hs b hf hg
    cases g with
    | zero =>
      have hb : b = [] := List.eq_nil_of_length_eq_zero (Nat.le_zero.mp hg)
      subst hb
      simp only [chunkStep, List.length_nil]
      rw [if_neg (by omega)]
    | succ g =>
      simp only [chunkStep]
      by_cases hbs : A.blockSize ≤ b.length
      · rw [if_pos hbs, if_pos hbs]
        have hd : (b.drop A.blockSize).length = b.length - A.blockSize :=
          List.length_drop _ _
        exact ih g _ _ (by omega) (by omega)
      · rw [if_neg hbs, if_neg hbs]

/-- A byte sequence shorter than a block is left untouched. -/
theorem processChunks_small (A : Alg) (hs b : List Nat)
    (hb : b.length < A.blockSize) : processChunks A hs b = (hs, b) := by
  unfold processChunks
  cases hn : b.length with
  | zero => rfl
  | succ n =>
    simp only [chunkStep]
    rw [if_neg (by omega)]

/-- When at least one full block is pending, `processChunks` first
compresses that block and then continues on the rest. -/
theorem processChunks_step (A : Alg) (hA : 0 < A.blockSize) (hs b : List Nat)
    (hb : A.blockSize ≤ b.length) :
    processChunks A hs b =
      processChunks A (compress A hs (b.take A.blockSize)) (b.drop A.blockSize) := by
  unfold processChunks
  rw [List.length_drop]
  obtain ⟨m, hm⟩ : ∃ m, b.length = m + 1 := ⟨b.length - 1, by omega⟩
  rw [hm]
  simp only [chunkStep]
  rw [if_pos hb]
  exact chunkStep_congr A hA m (m + 1 - A.blockSize) _ _
    (by rw [List.length_drop]; omega) (by rw [List.length_drop]; omega)

/-- Feeding `x ++ y` in one go is the same as feeding `x`, keeping the
partial remainder, and then feeding the remainder followed by `y`. -/
theorem processChunks_append_bounded (A : Alg) (hA : 0 < A.blockSize) :
    ∀ (n : Nat) (x : List Nat), x.length ≤ n → ∀ (hs y : List Nat),
      processChunks A hs (x ++ y)
        = processChunks A (processChunks A hs x).1 ((processChunks A hs x).2 ++ y) := by
  intro n
  induction n with
  | zero =>
    intro x hx hs y
    have hb : x = [] := List.eq_nil_of_length_eq_zero (Nat.le_zero.mp hx)
    subst hb
    rw [processChunks_small A hs [] (by simpa using hA)]
  | succ n ih =>
    intro x hx hs y
    by_cases hbs : A.blockSize ≤ x.length
    · have hxy : A.blockSize ≤ (x ++ y).length := by
        rw [List.length_append]; omega
      rw [processChunks_step A hA hs (x ++ y) hxy,
        processChunks_step A hA hs x hbs,
        List.take_append_of_le_length hbs,
        List.drop_append_of_le_length hbs]
      exact ih (x.drop A.blockSize) (by rw [List.length_drop]; omega) _ y
    · push_neg at hbs
      rw [processChunks_small A hs x hbs]

/-- `processChunks` over a split byte sequence, unbounded form. -/
theorem processChunks_append (A : Alg) (hA : 0 < A.blockSize)
    (hs x y : List Nat) :
    processChunks A hs (x ++ y)
      = processChunks A (processChunks A hs x).1 ((processChunks A hs x).2 ++ y) :=
  processChunks_append_bounded A hA x.length x le_rfl hs y

/-- The partial remainder left by the Block Feeder has length equal to
the input length modulo the block size, hence below the block size. -/
theorem processChunks_snd_length (A : Alg) (hA : 0 < A.blockSize) :
    ∀ (n : Nat) (x : List Nat), x.length ≤ n → ∀ hs : List Nat,
      (processChunks A hs x).2.length = x.length % A.blockSize := by
  intro n
  induction n with
  | zero =>
    intro x hx hs
    have hb : x = [] := List.eq_nil_of_length_eq_zero (Nat.le_zero.mp hx)
    subst hb
    rw [processChunks_small A hs [] (by simpa using hA)]
    simp [Nat.zero_mod]
  | succ n ih =>
    intro x hx hs
    by_cases hbs : A.blockSize ≤ x.length
    · rw [processChunks_step A hA hs x hbs]
      rw [ih (x.drop A.blockSize) (by rw [List.length_drop]; omega)]
      rw [List.length_drop]
      exact (Nat.mod_eq_sub_mod hbs).symm
    · push_neg at hbs
      rw [processChunks_small A hs x hbs]
      exact (Nat.mod_eq_of_lt hbs).symm

/-- The Compression Core always returns exactly 8 words. -/
theorem compress_length (A : Alg) (hs b : List Nat) :
    (compress A hs b).length = 8 := rfl

/-- The Block Feeder preserves the 8-word shape of the running state. -/
theorem processChunks_fst_length (A : Alg) (hA : 0 < A.blockSize) :
    ∀ (n : Nat) (x : List Nat), x.length ≤ n → ∀ hs : List Nat,
      hs.length = 8 → (processChunks A hs x).1.length = 8 := by
  intro n
  induction n with
  | zero =>
    intro x hx hs h8
    have hb : x = [] := List.eq_nil_of_length_eq_zero (Nat.le_zero.mp hx)
    subst hb
    rw [processChunks_small A hs [] (by simpa using hA)]
    exact h8
  | succ n ih =>
    intro x hx hs h8
    by_cases hbs : A.blockSize ≤ x.length
    · rw [processChunks_step A hA hs x hbs]
      exact ih (x.drop A.blockSize) (by rw [List.length_drop]; omega) _
        (compress_length A hs _)
    · push_neg at hbs
      rw [processChunks_small A hs x hbs]
      exact h8

/-- The padding depends on the buffered length only through its residue
modulo the block size. -/
theorem padSuffix_mod (A : Alg) (n L : Nat) :
    padSuffix A (n % A.blockSize) L = padSuffix A n L := by
  unfold padSuffix
  rw [Nat.mod_mod_of_dvd n dvd_rfl]

/-- Two successive updates feed exactly the concatenation: the Block
Feeder state after `update x` then `update y` equals the state after a
single `update (x ++ y)`. -/
theorem update_append (A : Alg) (hA : 0 < A.blockSize)
    (s : HashState) (x y : List Nat) :
    update A (update A s x) y = update A s (x ++ y) := by
  unfold update
  have h := processChunks_append A hA s.hs (s.buf ++ x) y
  rw [List.append_assoc] at h
  rw [← h]
  simp [List.length_append, Nat.mul_add, Nat.add_assoc]

/-- Streaming-then-finalize equals the one-shot reference computation:
feeding a whole message through the Block Feeder from the fresh state
and digesting gives the reference digest. -/
theorem digest_update_init (A : Alg) (hA : 0 < A.blockSize) (m : List Nat) :
    digest A (update A (initState A) m) = shaRef A m := by
  unfold shaRef digest update initState
  simp only [List.nil_append, Nat.zero_add]
  rw [processChunks_append A hA A.iv m (padSuffix A m.length (8 * m.length))]
  rw [← padSuffix_mod A m.length (8 * m.length)]
  rw [← processChunks_snd_length A hA m.length m le_rfl A.iv]

/-! ### Lemmas about serialization and hex encoding -/

/-- Fixed-width serialization produces exactly the requested width. -/
theorem toBytesBE_length (w n : Nat) : (toBytesBE w n).length = w := by
  unfold toBytesBE
  rw [List.length_map, List.length_range]

/-- Word serialization produces word-width bytes per word. -/
theorem wordsToBytes_length (A : Alg) (ws : List Nat) :
    (wordsToBytes A ws).length = ws.length * (A.wordBits / 8) := by
  unfold wordsToBytes
  induction ws with
  | nil => simp
  | cons w t ih =>
    rw [List.flatMap_cons, List.length_append, toBytesBE_length, ih,
      List.length_cons]
    ring

/-- Hex encoding yields two characters per byte. -/
theorem hexEncode_length (bs : List Nat) : (hexEncode bs).length = 2 * bs.length := by
  show (bs.flatMap hexByte).length = 2 * bs.length
  induction bs with
  | nil => rfl
  | cons b t ih =>
    rw [List.flatMap_cons, List.length_append, ih, List.length_cons]
    show 2 + 2 * t.length = 2 * (t.length + 1)
    ring

/-- Indexing the hex alphabet at a position below 16 stays inside the
alphabet. -/
theorem hexChars_getD_mem (i : Nat) (hi : i < 16) :
    hexChars.getD i '0' ∈ hexChars := by
  have hlen : i < hexChars.length := hi
  rw [List.getD_eq_getElem hexChars '0' hlen]
  exact List.getElem_mem hlen

/-- Both characters of one encoded byte are lowercase hex digits. -/
theorem hexByte_mem (b : Nat) (c : Char) (hc : c ∈ hexByte b) : c ∈ hexChars := by
  unfold hexByte at hc
  rcases List.mem_cons.mp hc with h | h
  · subst h
    exact hexChars_getD_mem _ (Nat.mod_lt _ (by omega))
  · rcases List.mem_cons.mp h with h2 | h2
    · subst h2
      exact hexChars_getD_mem _ (Nat.mod_lt _ (by omega))
    · cases h2

/-- Every character of a hex encoding is a lowercase hex digit. -/
theorem hexEncode_mem (bs : List Nat) (c : Char) (hc : c ∈ (hexEncode bs).data) :
    c ∈ hexChars := by
  have h : c ∈ bs.flatMap hexByte := hc
  rcases List.mem_flatMap.mp h with ⟨b, _, hb⟩
  exact hexByte_mem b c hb

/-- Digests of an 8-word state have exactly word-width times 8 bytes. -/
theorem digest_length (A : Alg) (hA : 0 < A.blockSize) (s : HashState)
    (h8 : s.hs.length = 8) : (digest A s).length = 8 * (A.wordBits / 8) := by
  unfold digest
  rw [wordsToBytes_length,
    processChunks_fst_length A hA _ _ le_rfl _ h8]

/-- `update` preserves the 8-word shape of the chaining state. -/
theorem update_hs_length (A : Alg) (hA : 0 < A.blockSize) (s : HashState)
    (h8 : s.hs.length = 8) (d : List Nat) : (update A s d).hs.length = 8 :=
  processChunks_fst_length A hA _ _ le_rfl _ h8

set_option maxRecDepth 1000000
set_option maxHeartbeats 4000000

/-! ### Multi-block test-vector steps -/

/-- Splitting a replicated input at a chunk boundary splits the update. -/
theorem update_replicate_split (A : Alg) (hA : 0 < A.blockSize)
    (s : HashState) (a m n : Nat) :
    update A s (List.replicate (m + n) a)
      = update A (update A s (List.replicate m a)) (List.replicate n a) := by
  rw [List.replicate_add, update_append A hA]

/-- Chunk 1 of 128 bytes 97 for SHA-256. -/
theorem stepA1 : update SHA256Alg (initState SHA256Alg) (List.replicate 128 97)
    = ⟨aState256 1, 1024, []⟩ := by rfl

/-- Chunk 2 of 128 bytes 97 for SHA-256. -/
theorem stepA2 : update SHA256Alg ⟨aState256 1, 1024, []⟩ (List.replicate 128 97)
    = ⟨aState256 2, 2048, []⟩ := by rfl

/-- Chunk 3 of 128 bytes 97 for SHA-256. -/
theorem stepA3 : update SHA256Alg ⟨aState256 2, 2048, []⟩ (List.replicate 128 97)
    = ⟨aState256 3, 3072, []⟩ := by rfl

/-- Chunk 4 of 128 bytes 97 for SHA-256. -/
theorem stepA4 : update SHA256Alg ⟨aState256 3, 3072, []⟩ (List.replicate 128 97)
    = ⟨aState256 4, 4096, []⟩ := by rfl

/-- Chunk 5 of 128 bytes 97 for SHA-256. -/
theorem stepA5 : update SHA256Alg ⟨aState256 4, 4096, []⟩ (List.replicate 128 97)
    = ⟨aState256 5, 5120, []⟩ := by rfl

/-- Chunk 6 of 128 bytes 97 for SHA-256. -/
theorem stepA6 : update SHA256Alg ⟨aState256 5, 5120, []⟩ (List.replicate 128 97)
    = ⟨aState256 6, 6144, []⟩ := by rfl

/-- Chunk 7 of 128 bytes 97 for SHA-256. -/
theorem stepA7 : update SHA256Alg ⟨aState256 6, 6144, []⟩ (List.replicate 128 97)
    = ⟨aState256 7, 7168, []⟩ := by rfl

/-- The final 104 bytes 97 for SHA-256: one more block is compressed
and 40 bytes stay buffered. -/
theorem stepA8 : update SHA256Alg ⟨aState256 7, 7168, []⟩ (List.replicate 104 97)
    = ⟨aState256 8, 8000, List.replicate 40 97⟩ := by rfl

/-- Finalizing the SHA-256 state reached after the 1000-byte input
yields the published reference digest. -/
theorem vec256final : hexdigest SHA256Alg ⟨aState256 8, 8000, List.replicate 40 97⟩
    = "41edece42d63e8d9bf515a9ba6932e1c20cbc9f5a5d134645adb5db1b9737ea3" := by decide

/-- The whole 1000-byte input advances the fresh SHA-256 state to the
tabulated final state, by chaining the chunk steps. -/
theorem sha256_1000a :
    update SHA256Alg (initState SHA256Alg) (List.replicate 1000 97)
      = ⟨aState256 8, 8000, List.replicate 40 97⟩ := by
  have h : 0 < SHA256Alg.blockSize := by decide
  have e1 := update_replicate_split SHA256Alg h (initState SHA256Alg) 97 128 872
  rw [stepA1] at e1
  have e2 := update_replicate_split SHA256Alg h (⟨aState256 1, 1024, []⟩ : HashState) 97 128 744
  rw [stepA2] at e2
  have e3 := update_replicate_split SHA256Alg h (⟨aState256 2, 2048, []⟩ : HashState) 97 128 616
  rw [stepA3] at e3
  have e4 := update_replicate_split SHA256Alg h (⟨aState256 3, 3072, []⟩ : HashState) 97 128 488
  rw [stepA4] at e4
  have e5 := update_replicate_split SHA256Alg h (⟨aState256 4, 4096, []⟩ : HashState) 97 128 360
  rw [stepA5] at e5
  have e6 := update_replicate_split SHA256Alg h (⟨aState256 5, 5120, []⟩ : HashState) 97 128 232
  rw [stepA6] at e6
  have e7 := update_replicate_split SHA256Alg h (⟨aState256 6, 6144, []⟩ : HashState) 97 128 104
  rw [stepA7] at e7
  exact e1.trans (e2.trans (e3.trans (e4.trans (e5.trans (e6.trans (e7.trans stepA8))))))

/-- Chunk 1 of 128 bytes 97 for SHA-512. -/
theorem stepB1 : update SHA512Alg (initState SHA512Alg) (List.replicate 128 97)
    = ⟨aState512 1, 1024, []⟩ := by rfl

/-- Chunk 2 of 128 bytes 97 for SHA-512. -/
theorem stepB2 : update SHA512Alg ⟨aState512 1, 1024, []⟩ (List.replicate 128 97)
    = ⟨aState512 2, 2048, []⟩ := by rfl

/-- Chunk 3 of 128 bytes 97 for SHA-512. -/
theorem stepB3 : update SHA512Alg ⟨aState512 2, 2048, []⟩ (List.replicate 128 97)
    = ⟨aState512 3, 3072, []⟩ := by rfl

/-- Chunk 4 of 128 bytes 97 for SHA-512. -/
theorem stepB4 : update SHA512Alg ⟨aState512 3, 3072, []⟩ (List.replicate 128 97)
    = ⟨aState512 4, 4096, []⟩ := by rfl

/-- Chunk 5 of 128 bytes 97 for SHA-512. -/
theorem stepB5 : update SHA512Alg ⟨aState512 4, 4096, []⟩ (List.replicate 128 97)
    = ⟨aState512 5, 5120, []⟩ := by rfl

/-- Chunk 6 of 128 bytes 97 for SHA-512. -/
theorem stepB6 : update SHA512Alg ⟨aState512 5, 5120, []⟩ (List.replicate 128 97)
    = ⟨aState512 6, 6144, []⟩ := by rfl

/-- Chunk 7 of 128 bytes 97 for SHA-512. -/
theorem stepB7 : update SHA512Alg ⟨aState512 6, 6144, []⟩ (List.replicate 128 97)
    = ⟨aState512 7, 7168, []⟩ := by rfl

/-- The final 104 bytes 97 for SHA-512 are buffered without reaching a
block boundary. -/
theorem stepB8 : update SHA512Alg ⟨aState512 7, 7168, []⟩ (List.replicate 104 97)
    = ⟨aState512 7, 8000, List.replicate 104 97⟩ := by rfl

/-- Finalizing the SHA-512 state reached after the 1000-byte input
yields the published reference digest. -/
theorem vec512final : hexdigest SHA512Alg ⟨aState512 7, 8000, List.replicate 104 97⟩
    = "67ba5535a46e3f86dbfbed8cbbaf0125c76ed549ff8b0b9e03e0c88cf90fa634fa7b12b47d77b694de488ace8d9a65967dc96df599727d3292a8d9d447709c97" := by decide

/-- The whole 1000-byte input advances the fresh SHA-512 state to the
tabulated final state. -/
theorem sha512_1000a :
    update SHA512Alg (initState SHA512Alg) (List.replicate 1000 97)
      = ⟨aState512 7, 8000, List.replicate 104 97⟩ := by
  have h : 0 < SHA512Alg.blockSize := by decide
  have e1 := update_replicate_split SHA512Alg h (initState SHA512Alg) 97 128 872
  rw [stepB1] at e1
  have e2 := update_replicate_split SHA512Alg h (⟨aState512 1, 1024, []⟩ : HashState) 97 128 744
  rw [stepB2] at e2
  have e3 := update_replicate_split SHA512Alg h (⟨aState512 2, 2048, []⟩ : HashState) 97 128 616
  rw [stepB3] at e3
  have e4 := update_replicate_split SHA512Alg h (⟨aState512 3, 3072, []⟩ : HashState) 97 128 488
  rw [stepB4] at e4
  have e5 := update_replicate_split SHA512Alg h (⟨aState512 4, 4096, []⟩ : HashState) 97 128 360
  rw [stepB5] at e5
  have e6 := update_replicate_split SHA512Alg h (⟨aState512 5, 5120, []⟩ : HashState) 97 128 232
  rw [stepB6] at e6
  have e7 := update_replicate_split SHA512Alg h (⟨aState512 6, 6144, []⟩ : HashState) 97 128 104
  rw [stepB7] at e7
  exact e1.trans (e2.trans (e3.trans (e4.trans (e5.trans (e6.trans (e7.trans stepB8))))))

/-! ### Claims -/

/-- C1: for every byte sequence, the hexdigest of the streaming SHA-256
variant equals the reference one-shot SHA-256 computation, and likewise
for SHA-512; in particular the multi-block input of 1000 bytes 0x61
('a') produces the published reference digests. -/
theorem claims_C1 :
    (∀ m : List Nat, (SHA256 m).hexdigest = shaRefHex SHA256Alg m) ∧
    (∀ m : List Nat, (SHA512 m).hexdigest = shaRefHex SHA512Alg m) ∧
    (SHA256 (List.replicate 1000 97)).hexdigest =
      "41edece42d63e8d9bf515a9ba6932e1c20cbc9f5a5d134645adb5db1b9737ea3" ∧
    (SHA512 (List.replicate 1000 97)).hexdigest =
      "67ba5535a46e3f86dbfbed8cbbaf0125c76ed549ff8b0b9e03e0c88cf90fa634fa7b12b47d77b694de488ace8d9a65967dc96df599727d3292a8d9d447709c97" := by
  refine ⟨fun m => ?_, fun m => ?_, ?_, ?_⟩
  · show hexdigest SHA256Alg (update SHA256Alg (initState SHA256Alg) m) = _
    unfold hexdigest shaRefHex
    rw [digest_update_init SHA256Alg (by decide) m]
  · show hexdigest SHA512Alg (update SHA512Alg (initState SHA512Alg) m) = _
    unfold hexdigest shaRefHex
    rw [digest_update_init SHA512Alg (by decide) m]
  · show hexdigest SHA256Alg (update SHA256Alg (initState SHA256Alg) (List.replicate 1000 97)) = _
    rw [sha256_1000a]
    exact vec256final
  · show hexdigest SHA512Alg (update SHA512Alg (initState SHA512Alg) (List.replicate 1000 97)) = _
    rw [sha512_1000a]
    exact vec512final

/-- C2: the fixed test vectors: SHA-256 of the empty sequence, SHA-256
of "abc" (bytes 97, 98, 99), and SHA-512 of the empty sequence. -/
theorem claims_C2 :
    (SHA256 []).hexdigest =
      "e3b0c44298fc1c149afbf4c8996fb92427ae41e4649b934ca495991b7852b855" ∧
    (SHA256 [97, 98, 99]).hexdigest =
      "ba7816bf8f01cfea414140de5dae2223b00361a396177a9cb410ff61f20015ad" ∧
    (SHA512 []).hexdigest =
      "cf83e1357eefb8bdf1542850d66d8007d620e4050b5715dc83f4a921d36ce9ce47d0d13c5d85f2b0ff8318d2877eec2f63b931bd47417a81a538327af927da3e" := by
  refine ⟨by decide, by decide, by decide⟩

/-- C3: chunking invariance: feeding `x` then `y` in two update calls
yields the same object, hence the same digest and hexdigest, as feeding
`x ++ y` in one call, for both variants; and the same holds at the
state level from any starting state. -/
theorem claims_C3 : ∀ x y : List Nat,
    (SHA256 x).update y = SHA256 (x ++ y) ∧
    (SHA512 x).update y = SHA512 (x ++ y) ∧
    ((SHA256 x).update y).digest = (SHA256 (x ++ y)).digest ∧
    ((SHA256 x).update y).hexdigest = (SHA256 (x ++ y)).hexdigest ∧
    ((SHA512 x).update y).digest = (SHA512 (x ++ y)).digest ∧
    ((SHA512 x).update y).hexdigest = (SHA512 (x ++ y)).hexdigest ∧
    (∀ s : HashState, update SHA256Alg (update SHA256Alg s x) y = update SHA256Alg s (x ++ y)) ∧
    (∀ s : HashState, update SHA512Alg (update SHA512Alg s x) y = update SHA512Alg s (x ++ y)) := by
  intro x y
  have h256 : (SHA256 x).update y = SHA256 (x ++ y) := by
    show (⟨SHA256Alg, update SHA256Alg (update SHA256Alg (initState SHA256Alg) x) y⟩ : HashObject) = _
    rw [update_append SHA256Alg (by decide) (initState SHA256Alg) x y]
    rfl
  have h512 : (SHA512 x).update y = SHA512 (x ++ y) := by
    show (⟨SHA512Alg, update SHA512Alg (update SHA512Alg (initState SHA512Alg) x) y⟩ : HashObject) = _
    rw [update_append SHA512Alg (by decide) (initState SHA512Alg) x y]
    rfl
  exact ⟨h256, h512, congrArg HashObject.digest h256, congrArg HashObject.hexdigest h256,
    congrArg HashObject.digest h512, congrArg HashObject.hexdigest h512,
    fun s => update_append SHA256Alg (by decide) s x y,
    fun s => update_append SHA512Alg (by decide) s x y⟩

/-- C4: digest-producing operations are side-effect-free observations:
in a call trace, two digests in a row return the same bytes; a digest
before an update changes neither the final state nor later outputs; and
digest, update extra, digest from a state fed `p` returns first the
digest of `p` and then the digest of the full concatenation
`p ++ extra`, identical to never having digested. -/
theorem claims_C4 : ∀ (s : HashState) (p extra : List Nat),
    (runOps SHA256Alg s [Op.dig, Op.dig]).2 = [digest SHA256Alg s, digest SHA256Alg s] ∧
    (runOps SHA512Alg s [Op.dig, Op.dig]).2 = [digest SHA512Alg s, digest SHA512Alg s] ∧
    runOps SHA256Alg s (Op.dig :: [Op.upd extra, Op.dig])
      = ((runOps SHA256Alg s [Op.upd extra, Op.dig]).1,
         digest SHA256Alg s :: (runOps SHA256Alg s [Op.upd extra, Op.dig]).2) ∧
    runOps SHA512Alg s (Op.dig :: [Op.upd extra, Op.dig])
      = ((runOps SHA512Alg s [Op.upd extra, Op.dig]).1,
         digest SHA512Alg s :: (runOps SHA512Alg s [Op.upd extra, Op.dig]).2) ∧
    (runOps SHA256Alg (update SHA256Alg (initState SHA256Alg) p)
        [Op.dig, Op.upd extra, Op.dig]).2
      = [digest SHA256Alg (update SHA256Alg (initState SHA256Alg) p),
         digest SHA256Alg (update SHA256Alg (initState SHA256Alg) (p ++ extra))] ∧
    (runOps SHA512Alg (update SHA512Alg (initState SHA512Alg) p)
        [Op.dig, Op.upd extra, Op.dig]).2
      = [digest SHA512Alg (update SHA512Alg (initState SHA512Alg) p),
         digest SHA512Alg (update SHA512Alg (initState SHA512Alg) (p ++ extra))] := by
  intro s p extra
  refine ⟨rfl, rfl, rfl, rfl, ?_, ?_⟩
  · simp only [runOps]
    rw [update_append SHA256Alg (by decide) (initState SHA256Alg) p extra]
  · simp only [runOps]
    rw [update_append SHA512Alg (by decide) (initState SHA512Alg) p extra]

/-- C5: the name-based dispatcher returns exactly the object of the
direct constructor for the two recognized names, fails with
`UnknownAlgorithm` for every other name, and `UnknownAlgorithm` is the
only error it can return. -/
theorem claims_C5 : ∀ d : List Nat,
    new "sha256" d = Except.ok (SHA256 d) ∧
    new "sha512" d = Except.ok (SHA512 d) ∧
    (∀ nm : String, nm ≠ "sha256" → nm ≠ "sha512" →
      new nm d = Except.error HashError.UnknownAlgorithm) ∧
    (∀ (nm : String) (e : HashError), new nm d = Except.error e →
      e = HashError.UnknownAlgorithm) := by
  intro d
  refine ⟨by simp [new], by simp [new], fun nm h1 h2 => ?_, fun nm e _ => ?_⟩
  · unfold new
    rw [if_neg h1, if_neg h2]
  · cases e
    rfl

/-- C5 witness: the dispatcher rejects the name "md5". -/
theorem claims_C5_witness :
    new "md5" [] = Except.error HashError.UnknownAlgorithm :=
  (claims_C5 []).2.2.1 "md5" (by decide) (by decide)

/-- C6: hexdigest is exactly the lowercase hex encoding of the digest
bytes; every character is a lowercase hex digit; and on every state
with the 8-word chaining shape (all reachable states) the digest has
exactly digest-size bytes and the hexdigest twice that many
characters. -/
theorem claims_C6 : ∀ s : HashState,
    hexdigest SHA256Alg s = hexEncode (digest SHA256Alg s) ∧
    hexdigest SHA512Alg s = hexEncode (digest SHA512Alg s) ∧
    (∀ c ∈ (hexdigest SHA256Alg s).data, c ∈ hexChars) ∧
    (∀ c ∈ (hexdigest SHA512Alg s).data, c ∈ hexChars) ∧
    (s.hs.length = 8 →
      (digest SHA256Alg s).length = 32 ∧ (hexdigest SHA256Alg s).length = 64 ∧
      (digest SHA512Alg s).length = 64 ∧ (hexdigest SHA512Alg s).length = 128) ∧
    (∀ p : List Nat,
      ((SHA256 p).digest).length = 32 ∧ ((SHA256 p).hexdigest).length = 64 ∧
      ((SHA512 p).digest).length = 64 ∧ ((SHA512 p).hexdigest).length = 128) := by
  intro s
  have len256 : ∀ t : HashState, t.hs.length = 8 → (digest SHA256Alg t).length = 32 :=
    fun t h8 => digest_length SHA256Alg (by decide) t h8
  have len512 : ∀ t : HashState, t.hs.length = 8 → (digest SHA512Alg t).length = 64 :=
    fun t h8 => digest_length SHA512Alg (by decide) t h8
  have hx256 : ∀ t : HashState, t.hs.length = 8 → (hexdigest SHA256Alg t).length = 64 := by
    intro t h8
    show (hexEncode (digest SHA256Alg t)).length = 64
    rw [hexEncode_length, len256 t h8]
  have hx512 : ∀ t : HashState, t.hs.length = 8 → (hexdigest SHA512Alg t).length = 128 := by
    intro t h8
    show (hexEncode (digest SHA512Alg t)).length = 128
    rw [hexEncode_length, len512 t h8]
  refine ⟨rfl, rfl,
    fun c hc => hexEncode_mem _ c hc,
    fun c hc => hexEncode_mem _ c hc,
    fun h8 => ⟨len256 s h8, hx256 s h8, len512 s h8, hx512 s h8⟩,
    fun p => ?_⟩
  have r256 : (update SHA256Alg (initState SHA256Alg) p).hs.length = 8 :=
    update_hs_length SHA256Alg (by decide) (initState SHA256Alg) rfl p
  have r512 : (update SHA512Alg (initState SHA512Alg) p).hs.length = 8 :=
    update_hs_length SHA512Alg (by decide) (initState SHA512Alg) rfl p
  exact ⟨len256 _ r256, hx256 _ r256, len512 _ r512, hx512 _ r512⟩

/-- C6 witness: the fresh SHA-256 state digests to 32 bytes and a
64-character hexdigest, and its first hexdigest character is a
lowercase hex digit. -/
theorem claims_C6_witness :
    (digest SHA256Alg (initState SHA256Alg)).length = 32 ∧
    (hexdigest SHA256Alg (initState SHA256Alg)).length = 64 ∧
    'e' ∈ hexChars := by
  have h := claims_C6 (initState SHA256Alg)
  exact ⟨(h.2.2.2.2.1 rfl).1, (h.2.2.2.2.1 rfl).2.1,
    h.2.2.1 'e' (by decide)⟩

/-- C7: constructing pre-seeded with initial data yields exactly the
object obtained by constructing bare and making one update call, for
both variants. -/
theorem claims_C7 : ∀ d : List Nat,
    SHA256 d = (SHA256 []).update d ∧ SHA512 d = (SHA512 []).update d := by
  intro d
  exact ⟨rfl, rfl⟩

/-- C8: the fixed read-only metadata of the two variants, unchanged by
updates (digesting does not even produce a new object). -/
theorem claims_C8 : ∀ (d x : List Nat) (o : HashObject),
    (SHA256 d).digest_size = 32 ∧ (SHA256 d).block_size = 64 ∧
    (SHA256 d).name = "sha256" ∧
    (SHA512 d).digest_size = 64 ∧ (SHA512 d).block_size = 128 ∧
    (SHA512 d).name = "sha512" ∧
    (o.update x).digest_size = o.digest_size ∧
    (o.update x).block_size = o.block_size ∧
    (o.update x).name = o.name := by
  intro d x o
  exact ⟨rfl, rfl, rfl, rfl, rfl, rfl, rfl, rfl, rfl⟩

/-- C9: state invariants: the fresh state has an empty buffer and a
zero counter; after every update the partial buffer is strictly below
the block size (no hypothesis on the starting state is needed); the
bit counter advances by exactly 8 times the data length on every call;
and a zero-length update is a no-op on every well-formed state. -/
theorem claims_C9 : ∀ (s : HashState) (d p : List Nat),
    (initState SHA256Alg).buf = [] ∧ (initState SHA256Alg).bitLen = 0 ∧
    (initState SHA512Alg).buf = [] ∧ (initState SHA512Alg).bitLen = 0 ∧
    (update SHA256Alg s d).buf.length < 64 ∧
    (update SHA512Alg s d).buf.length < 128 ∧
    (update SHA256Alg s d).bitLen = s.bitLen + 8 * d.length ∧
    (update SHA512Alg s d).bitLen = s.bitLen + 8 * d.length ∧
    (s.buf.length < 64 → update SHA256Alg s [] = s) ∧
    (s.buf.length < 128 → update SHA512Alg s [] = s) ∧
    (update SHA256Alg (initState SHA256Alg) p).buf.length < 64 ∧
    (update SHA512Alg (initState SHA512Alg) p).buf.length < 128 := by
  intro s d p
  have hbuf : ∀ (A : Alg), 0 < A.blockSize → ∀ (t : HashState) (x : List Nat),
      (update A t x).buf.length < A.blockSize := by
    intro A hA t x
    show (processChunks A t.hs (t.buf ++ x)).2.length < A.blockSize
    rw [processChunks_snd_length A hA _ _ le_rfl]
    exact Nat.mod_lt _ hA
  have hnoop : ∀ (A : Alg), ∀ t : HashState, t.buf.length < A.blockSize →
      update A t [] = t := by
    intro A t ht
    unfold update
    rw [List.append_nil, processChunks_small A t.hs t.buf ht]
    simp
  exact ⟨rfl, rfl, rfl, rfl,
    hbuf SHA256Alg (by decide) s d, hbuf SHA512Alg (by decide) s d,
    rfl, rfl,
    hnoop SHA256Alg s, hnoop SHA512Alg s,
    hbuf SHA256Alg (by decide) (initState SHA256Alg) p,
    hbuf SHA512Alg (by decide) (initState SHA512Alg) p⟩

/-- C9 witness: a zero-length update on the fresh SHA-256 state is a
no-op. -/
theorem claims_C9_witness :
    update SHA256Alg (initState SHA256Alg) [] = initState SHA256Alg := by
  have h := claims_C9 (initState SHA256Alg) [] []
  exact h.2.2.2.2.2.2.2.2.1 (by decide)

end RsHash
